import Mathlib

/-!
Shallow embedding of the Discord gateway lifecycle controller
(`src/discord/monitor/provider.lifecycle.ts`): the HELLO-stall watchdog
wired to the gateway debug stream, the lifecycle run with its pending-error
drain, error classification, abort wiring and fixed-order teardown, and the
ordered message dispatcher, together with theorems settling the spec's
claims about them.
-/

/-- JS `String.prototype.includes`: `strContains s pat` is true iff `pat`
occurs as a contiguous substring of `s`. -/
def strContains (s pat : String) : Bool :=
  s.toList.tails.any fun t => pat.toList.isPrefixOf t

/-- The mutable fields of the Carbon gateway plugin that the lifecycle code
reads and writes: `gateway.isConnected`, `gateway.state.sessionId`,
`gateway.state.resumeGatewayUrl`, `gateway.state.sequence` (modelled as
`stateSequence`) and the top-level `gateway.sequence`.  `hasState` models
the optional-chaining guard `mutableGateway?.state` in `clearResumeState`. -/
structure GatewayHandle where
  isConnected : Bool
  hasState : Bool
  sessionId : Option String
  resumeGatewayUrl : Option String
  stateSequence : Option Int
  sequence : Option Int
deriving DecidableEq, Repr

/-- Observable calls the watchdog makes on its collaborators. -/
inductive WEffect
  | logStall (msg : String)
  | clearResume
  | disconnect
  | connect (resume : Bool)
deriving DecidableEq, Repr

/-- Per-lifecycle-run mutable state of the HELLO-stall watchdog:
`helloTimeoutId` / `helloConnectedPollId` are modelled by pending flags,
`sawConnected` is the closure variable of the current watch window, and
`gateway` is the (optional) handle the closures read and mutate. -/
structure WatchdogState where
  gateway : Option GatewayHandle
  helloTimeoutPending : Bool
  helloPollPending : Bool
  sawConnected : Bool
  consecutiveHelloStalls : Nat
deriving DecidableEq, Repr

def HELLO_TIMEOUT_MS : Nat := 30000

def HELLO_CONNECTED_POLL_MS : Nat := 250

def MAX_CONSECUTIVE_HELLO_STALLS : Nat := 3

/-- Reading `gateway?.isConnected` (undefined coerces to false). -/
def gwConnected (w : WatchdogState) : Bool :=
  (w.gateway.map (·.isConnected)).getD false

/-- Model of `clearHelloWatch`: cancel the pending deadline timer and confirmation
poll, if any. -/
def clearHelloWatch (w : WatchdogState) : WatchdogState :=
  { w with helloTimeoutPending := false, helloPollPending := false }

/-- Model of `clearResumeState`: null out `state.sessionId`, `state.resumeGatewayUrl`,
`state.sequence` and the top-level `sequence`; a no-op when the gateway or
its `state` object is absent. -/
def clearResumeState (g : Option GatewayHandle) : Option GatewayHandle × List WEffect :=
  match g with
  | none => (none, [])
  | some g =>
    if g.hasState then
      (some { g with
          sessionId := none
          resumeGatewayUrl := none
          stateSequence := none
          sequence := none }, [.clearResume])
    else (some g, [])

/-- The log line emitted on a stall timeout. -/
def stallLogMessage (n : Nat) (forceFresh : Bool) : String :=
  if forceFresh then
    s!"connection stalled: no HELLO within {HELLO_TIMEOUT_MS}ms ({n}/{MAX_CONSECUTIVE_HELLO_STALLS}); forcing fresh identify"
  else
    s!"connection stalled: no HELLO within {HELLO_TIMEOUT_MS}ms ({n}/{MAX_CONSECUTIVE_HELLO_STALLS}); retrying resume"

/-- The `debug` listener `onGatewayDebug`: a message containing
`"WebSocket connection closed"` resets the stall counter when the handle
was connected and cancels both timers; a message containing
`"WebSocket connection opened"` cancels any previous timers, snapshots
`isConnected` into `sawConnected` and arms a fresh poll and deadline;
anything else is ignored. -/
def onGatewayDebug (w : WatchdogState) (msg : String) : WatchdogState × List WEffect :=
  if strContains msg "WebSocket connection closed" then
    let w1 := if gwConnected w then { w with consecutiveHelloStalls := 0 } else w
    (clearHelloWatch w1, [])
  else if !(strContains msg "WebSocket connection opened") then (w, [])
  else
    let w1 := clearHelloWatch w
    ({ w1 with
        sawConnected := gwConnected w1
        helloPollPending := true
        helloTimeoutPending := true }, [])

/-- One firing of the 250 ms confirmation poll: a no-op unless the interval
is live; when the handle is connected it records the confirmation, resets
the stall counter and cancels the interval (only the interval). -/
def helloPollTick (w : WatchdogState) : WatchdogState × List WEffect :=
  if !w.helloPollPending then (w, [])
  else if !gwConnected w then (w, [])
  else ({ w with
      sawConnected := true
      consecutiveHelloStalls := 0
      helloPollPending := false }, [])

/-- The 30 s deadline timer firing: cancels the poll; on a confirmed
handshake (`sawConnected` or currently connected) it only resets the stall
counter; otherwise it increments the counter, logs, clears resume state and
resets the counter when the threshold is reached, then disconnects and
reconnects (resume unless forced fresh). -/
def helloTimeoutFire (w : WatchdogState) : WatchdogState × List WEffect :=
  if !w.helloTimeoutPending then (w, [])
  else
    let w1 := { w with helloPollPending := false }
    if w1.sawConnected || gwConnected w1 then
      ({ w1 with consecutiveHelloStalls := 0, helloTimeoutPending := false }, [])
    else
      let n := w1.consecutiveHelloStalls + 1
      let forceFresh := decide (n ≥ MAX_CONSECUTIVE_HELLO_STALLS)
      let cleared := if forceFresh then clearResumeState w1.gateway else (w1.gateway, [])
      let n' := if forceFresh then 0 else n
      let connectEffs :=
        if w1.gateway.isSome then [WEffect.disconnect, WEffect.connect (!forceFresh)] else []
      ({ w1 with
          gateway := cleared.1
          consecutiveHelloStalls := n'
          helloTimeoutPending := false },
        WEffect.logStall (stallLogMessage n forceFresh) :: cleared.2 ++ connectEffs)

/-- External stimuli the watchdog reacts to.  `setConnected` models the
gateway client flipping `isConnected` (Carbon sets it true on READY or
RESUMED and false again during reconnect handling). -/
inductive WdEvent
  | debug (msg : String)
  | pollTick
  | timeoutFire
  | setConnected (b : Bool)
deriving DecidableEq, Repr

def wdStep (w : WatchdogState) : WdEvent → WatchdogState × List WEffect
  | .debug msg => onGatewayDebug w msg
  | .pollTick => helloPollTick w
  | .timeoutFire => helloTimeoutFire w
  | .setConnected b =>
    ({ w with gateway := w.gateway.map fun g => { g with isConnected := b } }, [])

def wdRun (w : WatchdogState) : List WdEvent → WatchdogState × List WEffect
  | [] => (w, [])
  | e :: es =>
    let r1 := wdStep w e
    let r2 := wdRun r1.1 es
    (r2.1, r1.2 ++ r2.2)

/-- A gateway handle with live resume state, as in the repository's stall
tests. -/
def probeGateway : GatewayHandle where
  isConnected := false
  hasState := true
  sessionId := some "session-1"
  resumeGatewayUrl := some "wss://gateway.discord.gg"
  stateSequence := some 123
  sequence := some 123

/-- A watch window armed by CONNECTION-OPENED, handle now connected. -/
def probeConfirmed : WatchdogState where
  gateway := some { probeGateway with isConnected := true }
  helloTimeoutPending := true
  helloPollPending := true
  sawConnected := false
  consecutiveHelloStalls := 2


/-- Fresh watchdog state at lifecycle start: no timers armed, counter 0. -/
def wdInit (g : Option GatewayHandle) : WatchdogState where
  gateway := g
  helloTimeoutPending := false
  helloPollPending := false
  sawConnected := false
  consecutiveHelloStalls := 0

/-- A watch window with the deadline pending and the handle still stalled
after two consecutive stall timeouts. -/
def probeStalled : WatchdogState where
  gateway := some probeGateway
  helloTimeoutPending := true
  helloPollPending := true
  sawConnected := false
  consecutiveHelloStalls := 2

theorem strContains_opened_not_closed :
    strContains "WebSocket connection opened" "WebSocket connection closed" = false := by
  decide

theorem strContains_opened_opened :
    strContains "WebSocket connection opened" "WebSocket connection opened" = true := by
  decide

/-- Scenario: a CONNECTION-OPENED debug line arms the watch, the handle
then reports `isConnected` and the confirmation poll observes it. -/
def pollConfirmEvents : List WdEvent :=
  [.debug "WebSocket connection opened", .setConnected true, .pollTick]

/-- C3 counterexample: when the confirmation poll observes `isConnected`
before the deadline, the poll interval is cancelled and the stall counter
reset, but the 30000 ms deadline timer is NOT cancelled — it stays
pending, so the claim that both timers are cancelled fails at this
concrete input. -/
theorem stall_poll_confirmation_counterexample :
    (wdRun (wdInit (some probeGateway)) pollConfirmEvents).1.helloPollPending = false ∧
    (wdRun (wdInit (some probeGateway)) pollConfirmEvents).1.consecutiveHelloStalls = 0 ∧
    ¬ (wdRun (wdInit (some probeGateway)) pollConfirmEvents).1.helloTimeoutPending = false := by
  decide

/-- C3 amended: when the live confirmation poll observes `isConnected`,
it cancels the poll interval and resets `consecutiveStalls` to 0, while
the deadline timer's pending status (and everything else) is untouched;
the still-pending deadline later fires as a harmless counter reset. -/
theorem stall_poll_confirmation_amended (w : WatchdogState)
    (hp : w.helloPollPending = true) (hc : gwConnected w = true) :
    helloPollTick w =
      ({ w with sawConnected := true, consecutiveHelloStalls := 0, helloPollPending := false },
        []) := by
  simp [helloPollTick, hp, hc]

theorem stall_poll_confirmation_amended_witness :
    helloPollTick probeConfirmed =
      ({ probeConfirmed with sawConnected := true, consecutiveHelloStalls := 0, helloPollPending := false }, []) :=
  stall_poll_confirmation_amended probeConfirmed (by decide) (by decide)

/-- C6: a debug message containing "WebSocket connection closed" observed
while the handle's `isConnected` is true resets `consecutiveStalls` to 0
and cancels both the deadline and poll timers, with no other effect. -/
theorem connection_closed_resets_stall_counter (w : WatchdogState) (msg : String)
    (hmsg : strContains msg "WebSocket connection closed" = true)
    (hc : gwConnected w = true) :
    onGatewayDebug w msg =
      ({ w with consecutiveHelloStalls := 0, helloTimeoutPending := false, helloPollPending := false }, []) := by
  simp [onGatewayDebug, clearHelloWatch, hmsg, hc]

theorem connection_closed_resets_stall_counter_witness :
    onGatewayDebug probeConfirmed "WebSocket connection closed with code 1006" =
      ({ probeConfirmed with consecutiveHelloStalls := 0, helloTimeoutPending := false, helloPollPending := false }, []) :=
  connection_closed_resets_stall_counter probeConfirmed _ (by decide) (by decide)

/-- C10: when the deadline timer fires after the handshake was already
confirmed (the poll saw `isConnected`, or the handle is connected at that
moment), the watchdog only cancels the poll and resets the stall counter:
no disconnect, no connect, no resume-state clearing, no log. -/
theorem deadline_after_confirmation_no_reconnect (w : WatchdogState)
    (ht : w.helloTimeoutPending = true)
    (hc : w.sawConnected = true ∨ gwConnected w = true) :
    helloTimeoutFire w =
      ({ w with helloPollPending := false, consecutiveHelloStalls := 0, helloTimeoutPending := false }, []) := by
  rcases hc with hc | hc
  · simp [helloTimeoutFire, ht, hc]
  · simp [helloTimeoutFire, ht]
    intro _
    exact hc

theorem deadline_after_confirmation_no_reconnect_witness :
    helloTimeoutFire probeConfirmed =
      ({ probeConfirmed with helloPollPending := false, consecutiveHelloStalls := 0, helloTimeoutPending := false }, []) :=
  deadline_after_confirmation_no_reconnect probeConfirmed (by decide) (Or.inr (by decide))

/-- C5: on the third consecutive stall timeout the watchdog clears the
resume state (sessionId, resume gateway URL and both sequence fields set
to null) before `connect(resume := false)`, and the counter ends at 0. -/
theorem stall_third_timeout_fresh_identify (w : WatchdogState) (g : GatewayHandle)
    (hg : w.gateway = some g) (hs : g.hasState = true)
    (hn : w.consecutiveHelloStalls = 2)
    (ht : w.helloTimeoutPending = true) (hsaw : w.sawConnected = false)
    (hc : g.isConnected = false) :
    helloTimeoutFire w =
      ({ w with helloPollPending := false, helloTimeoutPending := false, consecutiveHelloStalls := 0, gateway := some { g with sessionId := none, resumeGatewayUrl := none, stateSequence := none, sequence := none } },
        [.logStall (stallLogMessage 3 true), .clearResume, .disconnect, .connect false]) := by
  simp [helloTimeoutFire, ht, hsaw, hn, gwConnected, hg, hc, clearResumeState, hs,
    MAX_CONSECUTIVE_HELLO_STALLS]

theorem stall_third_timeout_fresh_identify_witness :
    helloTimeoutFire probeStalled =
      ({ probeStalled with helloPollPending := false, helloTimeoutPending := false, consecutiveHelloStalls := 0, gateway := some { probeGateway with sessionId := none, resumeGatewayUrl := none, stateSequence := none, sequence := none } },
        [.logStall (stallLogMessage 3 true), .clearResume, .disconnect, .connect false]) :=
  stall_third_timeout_fresh_identify probeStalled probeGateway rfl rfl rfl rfl rfl rfl

/-- One stall round: the gateway opens a socket but never confirms, and the
30 s deadline fires. -/
def stallRoundEvents : List WdEvent :=
  [.debug "WebSocket connection opened", .timeoutFire]

/-- Observable effects of the i-th sub-threshold stall timeout. -/
def stallRetryEffects (i : Nat) : List WEffect :=
  [.logStall (stallLogMessage i false), .disconnect, .connect true]

/-- C4: for any run of `n < 3` consecutive stall timeouts starting from a
zero counter, every timeout emits disconnect followed by
`connect(resume := true)`, and the handle — in particular its sessionId,
resume URL and sequence fields — is left completely unchanged. -/
theorem stall_retry_resume_below_three (w : WatchdogState) (g : GatewayHandle)
    (hg : w.gateway = some g) (hc : g.isConnected = false)
    (h0 : w.consecutiveHelloStalls = 0)
    (n : Nat) (hn : n ≤ 2) :
    (wdRun w (List.flatten (List.replicate n stallRoundEvents))).2 =
        List.flatten ((List.range n).map fun i => stallRetryEffects (i + 1)) ∧
      (wdRun w (List.flatten (List.replicate n stallRoundEvents))).1.gateway = some g ∧
      (wdRun w (List.flatten (List.replicate n stallRoundEvents))).1.consecutiveHelloStalls = n := by
  interval_cases n <;>
    simp [wdRun, wdStep, stallRoundEvents, onGatewayDebug, helloTimeoutFire, clearHelloWatch,
      gwConnected, hg, hc, h0, clearResumeState, stallRetryEffects,
      MAX_CONSECUTIVE_HELLO_STALLS, strContains_opened_not_closed, strContains_opened_opened,
      List.replicate, List.range_succ]

theorem stall_retry_resume_below_three_witness :
    (wdRun (wdInit (some probeGateway)) (List.flatten (List.replicate 2 stallRoundEvents))).2 =
        List.flatten ((List.range 2).map fun i => stallRetryEffects (i + 1)) ∧
      (wdRun (wdInit (some probeGateway)) (List.flatten (List.replicate 2 stallRoundEvents))).1.gateway = some probeGateway ∧
      (wdRun (wdInit (some probeGateway)) (List.flatten (List.replicate 2 stallRoundEvents))).1.consecutiveHelloStalls = 2 :=
  stall_retry_resume_below_three (wdInit (some probeGateway)) probeGateway rfl rfl rfl 2 (by decide)

/-- Observable calls of one lifecycle run (`runDiscordGatewayLifecycle`),
in program order: registration and logging attachment, the `onAbort`
effects (swallow one emitter error, set `options.reconnect` to
`{ maxAttempts: 0 }`, disconnect), the approvals start hook, error-log
lines, the call into `waitForDiscordGatewayStop`, and the teardown hooks
of the `finally` block. -/
inductive LEvent
  | registerGateway
  | attachLogging
  | attachDebug
  | swallowOneError
  | setReconnectZero
  | disconnectGateway
  | approvalsStart
  | logGatewayErr (msg : String)
  | logDisallowedIntents
  | waitForStop
  | releaseGuard
  | unregisterGateway
  | stopLogging
  | clearWatch
  | detachDebug
  | detachAbort
  | voiceDestroy
  | approvalsStop
  | threadStop
deriving DecidableEq, Repr

/-- Input of one lifecycle run.  Errors are their string form (the code
only ever inspects `String(err)` and feeds the raw value to the
classifier).  `waitErrors` is the stream of gateway errors observed while
awaiting `waitForDiscordGatewayStop`; `abortFiresDuringWait` is how many
times the external abort signal fires during that await. -/
structure LifecycleInput where
  hasGateway : Bool
  hasEmitter : Bool
  hasAbortSignal : Bool
  abortAlreadyAborted : Bool
  approvalsPresent : Bool
  approvalsStartError : Option String
  pendingGatewayErrors : List String
  waitErrors : List String
  abortFiresDuringWait : Nat
  voicePresent : Bool
  hasReleaseGuard : Bool
  isDisallowed : String → Bool

/-- Predicate `shouldStopOnGatewayError`: an error stops the wait when its message
contains "Max reconnect attempts" or "Fatal Gateway error", or when it is
classified as a disallowed-intents error. -/
def shouldStopOnGatewayError (isDisallowed : String → Bool) (err : String) : Bool :=
  strContains err "Max reconnect attempts" || strContains err "Fatal Gateway error" ||
    isDisallowed err

/-- Model of `logGatewayError`: a disallowed-intents error logs the actionable 4014
notice and latches `sawDisallowedIntents`; any other error logs its string
form.  Returns the emitted events and the updated latch. -/
def logGatewayError (isDisallowed : String → Bool) (saw : Bool) (err : String) :
    List LEvent × Bool :=
  if isDisallowed err then ([.logDisallowedIntents], true)
  else ([.logGatewayErr err], saw)

/-- How the pending-error drain loop exits. -/
inductive DrainOutcome
  | proceed
  | returnSuccess
  | throwErr (err : String)
deriving DecidableEq, Repr

structure DrainOut where
  events : List LEvent
  saw : Bool
  out : DrainOutcome
deriving Repr

/-- The drain loop over the snapshot of queued early errors: each error is
logged; a non-stopping error lets draining continue; a stopping disallowed
error returns success; any other stopping error is thrown. -/
def drainPendingErrors (isDisallowed : String → Bool) :
    Bool → List String → DrainOut
  | saw, [] => ⟨[], saw, .proceed⟩
  | saw, err :: rest =>
    let l := logGatewayError isDisallowed saw err
    if !shouldStopOnGatewayError isDisallowed err then
      let r := drainPendingErrors isDisallowed l.2 rest
      ⟨l.1 ++ r.events, r.saw, r.out⟩
    else if isDisallowed err then ⟨l.1, l.2, .returnSuccess⟩
    else ⟨l.1, l.2, .throwErr err⟩

structure WaitOut where
  events : List LEvent
  saw : Bool
  rejection : Option String
deriving Repr

/-- Modelled from the spec: `waitForDiscordGatewayStop`
(`src/discord/monitor.gateway.ts`) is not among the sources here; §6
describes it as a primitive that reports each observed error to the
error-observer callback, rejects as soon as the stop predicate matches an
observed error, and otherwise resolves (natural stop or cancellation).
Here the observer is `logGatewayError` and the predicate is
`shouldStopOnGatewayError`, exactly as the lifecycle passes them. -/
def processWaitErrors (isDisallowed : String → Bool) :
    Bool → List String → WaitOut
  | saw, [] => ⟨[], saw, none⟩
  | saw, err :: rest =>
    let l := logGatewayError isDisallowed saw err
    if shouldStopOnGatewayError isDisallowed err then ⟨l.1, l.2, some err⟩
    else
      let r := processWaitErrors isDisallowed l.2 rest
      ⟨l.1 ++ r.events, r.saw, r.rejection⟩

/-- The `onAbort` handler: with no gateway it returns before doing
anything; otherwise it swallows one pending emitter error, disables
reconnection (`maxAttempts := 0`) and disconnects. -/
def onAbortEvents (inp : LifecycleInput) : List LEvent :=
  if !inp.hasGateway then []
  else (if inp.hasEmitter then [LEvent.swallowOneError] else []) ++
    [LEvent.setReconnectZero, LEvent.disconnectGateway]

/-- The one-shot abort listener firing during the wait: it was only
registered when the signal was not already set, and `once` semantics plus
teardown removal mean at most one invocation regardless of how often the
signal re-fires. -/
def abortDuringWaitEvents (inp : LifecycleInput) : List LEvent :=
  if inp.hasAbortSignal && !inp.abortAlreadyAborted && decide (1 ≤ inp.abortFiresDuringWait) then
    onAbortEvents inp
  else []

/-- Code before the `try` block: register the handle when a gateway plugin
exists, attach gateway logging, run `onAbort` immediately when the signal
is already set, and attach the watchdog debug listener. -/
def setupEvents (inp : LifecycleInput) : List LEvent :=
  (if inp.hasGateway then [LEvent.registerGateway] else []) ++
  [LEvent.attachLogging] ++
  (if inp.hasAbortSignal && inp.abortAlreadyAborted then onAbortEvents inp else []) ++
  (if inp.hasEmitter then [LEvent.attachDebug] else [])

inductive TryResult
  | success
  | thrown (err : String)
deriving DecidableEq, Repr

structure TryOutput where
  events : List LEvent
  saw : Bool
  result : TryResult
  waitCalls : Nat
deriving Repr

/-- The `try` block: start the approvals handler (its failure aborts the
run), drain the snapshot of queued errors, then await
`waitForDiscordGatewayStop`. -/
def lifecycleTry (inp : LifecycleInput) : TryOutput :=
  let startEvs := if inp.approvalsPresent then [LEvent.approvalsStart] else []
  match (if inp.approvalsPresent then inp.approvalsStartError else none) with
  | some e => ⟨startEvs, false, .thrown e, 0⟩
  | none =>
    let dr := drainPendingErrors inp.isDisallowed false inp.pendingGatewayErrors
    match dr.out with
    | .returnSuccess => ⟨startEvs ++ dr.events, dr.saw, .success, 0⟩
    | .throwErr e => ⟨startEvs ++ dr.events, dr.saw, .thrown e, 0⟩
    | .proceed =>
      let wr := processWaitErrors inp.isDisallowed dr.saw inp.waitErrors
      let evs := startEvs ++ dr.events ++ [LEvent.waitForStop] ++
        abortDuringWaitEvents inp ++ wr.events
      match wr.rejection with
      | some e => ⟨evs, wr.saw, .thrown e, 1⟩
      | none => ⟨evs, wr.saw, .success, 1⟩

/-- The `finally` block, in source order: release the early-error guard,
unregister the registry entry, stop gateway logging, clear the watchdog
timers, detach the debug listener, detach the abort listener, destroy the
voice manager (and clear its external ref), stop the approvals handler,
stop thread bindings. -/
def teardownEvents (inp : LifecycleInput) : List LEvent :=
  (if inp.hasReleaseGuard then [LEvent.releaseGuard] else []) ++
  [LEvent.unregisterGateway, LEvent.stopLogging, LEvent.clearWatch] ++
  (if inp.hasEmitter then [LEvent.detachDebug] else []) ++
  (if inp.hasAbortSignal then [LEvent.detachAbort] else []) ++
  (if inp.voicePresent then [LEvent.voiceDestroy] else []) ++
  (if inp.approvalsPresent then [LEvent.approvalsStop] else []) ++
  [LEvent.threadStop]

structure LifecycleResult where
  trace : List LEvent
  outcome : Option String
  pendingAfter : List String
  waitCalls : Nat
deriving Repr

/-- The whole of `runDiscordGatewayLifecycle`: setup, the `try` block, the
`catch` classification (rethrow unless a disallowed-intents condition was
latched or the thrown error itself is disallowed), with the `finally`
teardown always appended before the outcome is delivered.  `pendingAfter`
is the caller's queue after the run (`length = 0` assignment). -/
def runLifecycleModel (inp : LifecycleInput) : LifecycleResult :=
  let t := lifecycleTry inp
  let outcome := match t.result with
    | .success => none
    | .thrown e => if !t.saw && !inp.isDisallowed e then some e else none
  { trace := setupEvents inp ++ t.events ++ teardownEvents inp
    outcome := outcome
    pendingAfter := if inp.pendingGatewayErrors.isEmpty then inp.pendingGatewayErrors else []
    waitCalls := t.waitCalls }

/-- The teardown hooks of the `finally` block, in their fixed order. -/
def teardownHookList : List LEvent :=
  [.releaseGuard, .unregisterGateway, .stopLogging, .clearWatch, .detachDebug,
   .detachAbort, .voiceDestroy, .approvalsStop, .threadStop]

def isTeardownEvent : LEvent → Bool
  | .releaseGuard | .unregisterGateway | .stopLogging | .clearWatch
  | .detachDebug | .detachAbort | .voiceDestroy | .approvalsStop | .threadStop => true
  | _ => false

def isLogEvent : LEvent → Bool
  | .logGatewayErr _ | .logDisallowedIntents => true
  | _ => false

theorem isTeardown_false_of_isLog (e : LEvent) (h : isLogEvent e = true) :
    isTeardownEvent e = false := by
  cases e <;> simp_all [isLogEvent, isTeardownEvent]

theorem logGatewayError_events (d : String → Bool) (saw : Bool) (err : String) :
    ∀ e ∈ (logGatewayError d saw err).1, isLogEvent e = true := by
  unfold logGatewayError
  split <;> intro e he <;> simp at he <;> subst he <;> rfl

theorem drainPendingErrors_events (d : String → Bool) (l : List String) :
    ∀ (saw : Bool), ∀ e ∈ (drainPendingErrors d saw l).events, isLogEvent e = true := by
  induction l with
  | nil => intro saw e he; simp [drainPendingErrors] at he
  | cons x xs ih =>
    intro saw e he
    rw [drainPendingErrors] at he
    split at he
    · simp only [List.mem_append] at he
      rcases he with he | he
      · exact logGatewayError_events d saw x e he
      · exact ih _ e he
    · split at he
      · exact logGatewayError_events d saw x e he
      · exact logGatewayError_events d saw x e he

theorem processWaitErrors_events (d : String → Bool) (l : List String) :
    ∀ (saw : Bool), ∀ e ∈ (processWaitErrors d saw l).events, isLogEvent e = true := by
  induction l with
  | nil => intro saw e he; simp [processWaitErrors] at he
  | cons x xs ih =>
    intro saw e he
    rw [processWaitErrors] at he
    split at he
    · exact logGatewayError_events d saw x e he
    · simp only [List.mem_append] at he
      rcases he with he | he
      · exact logGatewayError_events d saw x e he
      · exact ih _ e he

theorem setupEvents_not_teardown (inp : LifecycleInput) :
    ∀ e ∈ setupEvents inp, isTeardownEvent e = false := by
  have h : (setupEvents inp).all (fun e => !isTeardownEvent e) = true := by
    unfold setupEvents onAbortEvents
    split_ifs <;> rfl
  intro e he
  simpa using List.all_eq_true.mp h e he

theorem abortDuringWait_not_teardown (inp : LifecycleInput) :
    ∀ e ∈ abortDuringWaitEvents inp, isTeardownEvent e = false := by
  have h : (abortDuringWaitEvents inp).all (fun e => !isTeardownEvent e) = true := by
    unfold abortDuringWaitEvents onAbortEvents
    split_ifs <;> rfl
  intro e he
  simpa using List.all_eq_true.mp h e he

theorem lifecycleTry_not_teardown (inp : LifecycleInput) :
    ∀ e ∈ (lifecycleTry inp).events, isTeardownEvent e = false := by
  have hstart : ∀ x ∈ (if inp.approvalsPresent then [LEvent.approvalsStart] else []),
      isTeardownEvent x = false := by
    split
    · rintro x hx
      simp at hx
      subst hx; rfl
    · rintro x hx
      simp at hx
  have hdrain : ∀ x ∈ (drainPendingErrors inp.isDisallowed false inp.pendingGatewayErrors).events,
      isTeardownEvent x = false := fun x hx =>
    isTeardown_false_of_isLog x (drainPendingErrors_events _ _ _ x hx)
  have hwaitL : ∀ x ∈ (processWaitErrors inp.isDisallowed
      (drainPendingErrors inp.isDisallowed false inp.pendingGatewayErrors).saw
      inp.waitErrors).events, isTeardownEvent x = false := fun x hx =>
    isTeardown_false_of_isLog x (processWaitErrors_events _ _ _ x hx)
  have hw : ∀ x ∈ [LEvent.waitForStop], isTeardownEvent x = false := by
    rintro x hx
    simp at hx
    subst hx; rfl
  have habort := abortDuringWait_not_teardown inp
  unfold lifecycleTry
  dsimp only
  cases (if inp.approvalsPresent then inp.approvalsStartError else none) with
  | some err => exact hstart
  | none =>
    cases (drainPendingErrors inp.isDisallowed false inp.pendingGatewayErrors).out with
    | returnSuccess =>
      dsimp only
      rw [List.forall_mem_append]
      exact ⟨hstart, hdrain⟩
    | throwErr err =>
      dsimp only
      rw [List.forall_mem_append]
      exact ⟨hstart, hdrain⟩
    | proceed =>
      cases (processWaitErrors inp.isDisallowed
          (drainPendingErrors inp.isDisallowed false inp.pendingGatewayErrors).saw
          inp.waitErrors).rejection with
      | some err =>
        dsimp only
        simp only [List.forall_mem_append]
        exact ⟨⟨⟨⟨hstart, hdrain⟩, hw⟩, habort⟩, hwaitL⟩
      | none =>
        dsimp only
        simp only [List.forall_mem_append]
        exact ⟨⟨⟨⟨hstart, hdrain⟩, hw⟩, habort⟩, hwaitL⟩

/-- C1: under every exit path — graceful stop, approvals start-hook throw,
rejected wait, queued fatal error, cancellation — the teardown hooks run
exactly once each, in the fixed source order (release guard, unregister,
stop logging, clear timers, detach debug, detach abort, stop voice
manager, stop approvals, stop thread bindings), as the final suffix of the
run's trace: teardown completes before the outcome (and any error in it)
reaches the caller. -/
theorem lifecycle_teardown_exactly_once_in_order (inp : LifecycleInput)
    (hem : inp.hasEmitter = true) (ha : inp.hasAbortSignal = true)
    (hv : inp.voicePresent = true) (hap : inp.approvalsPresent = true)
    (hr : inp.hasReleaseGuard = true) :
    ∃ pre, (runLifecycleModel inp).trace = pre ++ teardownHookList ∧
      ∀ e ∈ teardownHookList, e ∉ pre := by
  refine ⟨setupEvents inp ++ (lifecycleTry inp).events, ?_, ?_⟩
  · have ht : teardownEvents inp = teardownHookList := by
      simp [teardownEvents, teardownHookList, hem, ha, hv, hap, hr]
    simp [runLifecycleModel, ht, List.append_assoc]
  · intro e hemem hpre
    have h1 : isTeardownEvent e = true := by
      fin_cases hemem <;> rfl
    rcases List.mem_append.mp hpre with h | h
    · have h2 := setupEvents_not_teardown inp e h
      simp [h2] at h1
    · have h2 := lifecycleTry_not_teardown inp e h
      simp [h2] at h1

/-- Concrete lifecycle input: everything present, a transient queued error,
a fatal wait rejection, one abort re-fire. -/
def sampleInput : LifecycleInput where
  hasGateway := true
  hasEmitter := true
  hasAbortSignal := true
  abortAlreadyAborted := false
  approvalsPresent := true
  approvalsStartError := none
  pendingGatewayErrors := ["transient gateway glitch"]
  waitErrors := ["another transient glitch", "Max reconnect attempts reached"]
  abortFiresDuringWait := 2
  voicePresent := true
  hasReleaseGuard := true
  isDisallowed := fun s => strContains s "4014"

theorem lifecycle_teardown_exactly_once_in_order_witness :
    ∃ pre, (runLifecycleModel sampleInput).trace = pre ++ teardownHookList ∧
      ∀ e ∈ teardownHookList, e ∉ pre :=
  lifecycle_teardown_exactly_once_in_order sampleInput rfl rfl rfl rfl rfl

theorem not_disallowed_of_not_stop (d : String → Bool) (x : String)
    (h : shouldStopOnGatewayError d x = false) : d x = false := by
  unfold shouldStopOnGatewayError at h
  simp only [Bool.or_eq_false_iff] at h
  exact h.2

/-- The log line `logGatewayError` emits for an error. -/
def logEventOf (d : String → Bool) (e : String) : LEvent :=
  if d e then .logDisallowedIntents else .logGatewayErr e

/-- Draining a queue with no stopping error logs every entry and proceeds,
leaving the disallowed latch unset. -/
theorem drain_nonstop (d : String → Bool) (l : List String)
    (h : ∀ x ∈ l, shouldStopOnGatewayError d x = false) :
    drainPendingErrors d false l = ⟨l.map LEvent.logGatewayErr, false, .proceed⟩ := by
  induction l with
  | nil => rfl
  | cons x xs ih =>
    have hx := h x (by simp)
    have hdx : d x = false := not_disallowed_of_not_stop d x hx
    rw [drainPendingErrors]
    simp [logGatewayError, hdx, hx, ih (fun y hy => h y (by simp [hy]))]

/-- Draining a queue whose first stopping error is `e` logs the prefix and
`e`, then returns success when `e` is disallowed and throws `e` otherwise;
the disallowed latch is exactly `d e`. -/
theorem drain_first_stop (d : String → Bool) (pre : List String) :
    ∀ (e : String) (post : List String),
      (∀ x ∈ pre, shouldStopOnGatewayError d x = false) →
      shouldStopOnGatewayError d e = true →
      drainPendingErrors d false (pre ++ e :: post) =
        ⟨pre.map LEvent.logGatewayErr ++ [logEventOf d e], d e,
          if d e then .returnSuccess else .throwErr e⟩ := by
  induction pre with
  | nil =>
    intro e post _ hstop
    rw [List.nil_append, drainPendingErrors]
    by_cases hde : d e = true <;>
      simp [logGatewayError, logEventOf, hstop, hde]
  | cons x xs ih =>
    intro e post h hstop
    have hx := h x (by simp)
    have hdx : d x = false := not_disallowed_of_not_stop d x hx
    rw [List.cons_append, drainPendingErrors]
    simp [logGatewayError, hdx, hx, ih e post (fun y hy => h y (by simp [hy])) hstop]

/-- Awaiting the stream over an error sequence whose first stopping error
is `e` logs the prefix and `e` and rejects with `e`; the disallowed latch
is exactly `d e`. -/
theorem processWait_first_stop (d : String → Bool) (pre : List String) :
    ∀ (e : String) (post : List String),
      (∀ x ∈ pre, shouldStopOnGatewayError d x = false) →
      shouldStopOnGatewayError d e = true →
      processWaitErrors d false (pre ++ e :: post) =
        ⟨pre.map LEvent.logGatewayErr ++ [logEventOf d e], d e, some e⟩ := by
  induction pre with
  | nil =>
    intro e post _ hstop
    rw [List.nil_append, processWaitErrors]
    by_cases hde : d e = true <;>
      simp [logGatewayError, logEventOf, hstop, hde]
  | cons x xs ih =>
    intro e post h hstop
    have hx := h x (by simp)
    have hdx : d x = false := not_disallowed_of_not_stop d x hx
    rw [List.cons_append, processWaitErrors]
    simp [logGatewayError, hdx, hx, ih e post (fun y hy => h y (by simp [hy])) hstop]

/-- C2: when the wait phase is reached (approvals start succeeded, no
queued error stopped the drain) and rejects with error `e` — the first
observed error matching the stop predicate — the lifecycle swallows `e`
and resolves successfully iff `e` is classified disallowed/graceful, and
otherwise rethrows exactly `e`. -/
theorem lifecycle_wait_rejection_classified (inp : LifecycleInput)
    (hstart : (if inp.approvalsPresent then inp.approvalsStartError else none) = none)
    (hpend : ∀ x ∈ inp.pendingGatewayErrors,
      shouldStopOnGatewayError inp.isDisallowed x = false)
    (pre e post : _) (hw : inp.waitErrors = pre ++ e :: post)
    (hpre : ∀ x ∈ pre, shouldStopOnGatewayError inp.isDisallowed x = false)
    (he : shouldStopOnGatewayError inp.isDisallowed e = true) :
    (runLifecycleModel inp).outcome = if inp.isDisallowed e then none else some e := by
  unfold runLifecycleModel lifecycleTry
  rw [hstart, drain_nonstop _ _ hpend, hw]
  dsimp only
  rw [processWait_first_stop _ _ _ _ hpre he]
  by_cases hde : inp.isDisallowed e = true <;> simp [hde]

theorem lifecycle_wait_rejection_classified_witness :
    (runLifecycleModel sampleInput).outcome =
      if sampleInput.isDisallowed "Max reconnect attempts reached" then none
      else some "Max reconnect attempts reached" :=
  lifecycle_wait_rejection_classified sampleInput rfl (by decide)
    ["another transient glitch"] "Max reconnect attempts reached" [] rfl
    (by decide) (by decide)

/-- C7: a non-empty queue of early errors is snapshot-and-cleared, then
drained in order: non-stopping errors are logged and draining continues,
until the first stopping error `e`, which ends the run before any call to
`waitForDiscordGatewayStop` — successfully when `e` is disallowed,
rejecting with `e` itself otherwise. -/
theorem lifecycle_drain_queued_errors (inp : LifecycleInput)
    (hstart : (if inp.approvalsPresent then inp.approvalsStartError else none) = none)
    (pre e post : _) (hp : inp.pendingGatewayErrors = pre ++ e :: post)
    (hpre : ∀ x ∈ pre, shouldStopOnGatewayError inp.isDisallowed x = false)
    (he : shouldStopOnGatewayError inp.isDisallowed e = true) :
    (runLifecycleModel inp).pendingAfter = [] ∧
    (runLifecycleModel inp).waitCalls = 0 ∧
    (runLifecycleModel inp).outcome = (if inp.isDisallowed e then none else some e) ∧
    ∃ t0 t1, (runLifecycleModel inp).trace =
      t0 ++ (pre.map LEvent.logGatewayErr ++ [logEventOf inp.isDisallowed e]) ++ t1 := by
  unfold runLifecycleModel lifecycleTry
  rw [hstart, hp, drain_first_stop _ _ _ _ hpre he]
  by_cases hde : inp.isDisallowed e = true <;>
    refine ⟨by simp, by simp [hde], by simp [hde], ?_⟩ <;>
    · refine ⟨setupEvents inp ++ (if inp.approvalsPresent then [LEvent.approvalsStart] else []),
        teardownEvents inp, ?_⟩
      simp [hde, List.append_assoc]

/-- Concrete lifecycle input whose early-error queue holds a transient
error followed by a fatal one. -/
def sampleDrainInput : LifecycleInput where
  hasGateway := true
  hasEmitter := true
  hasAbortSignal := true
  abortAlreadyAborted := false
  approvalsPresent := true
  approvalsStartError := none
  pendingGatewayErrors := ["transient gateway glitch", "Fatal Gateway error: 4000"]
  waitErrors := []
  abortFiresDuringWait := 0
  voicePresent := true
  hasReleaseGuard := true
  isDisallowed := fun s => strContains s "4014"

theorem lifecycle_drain_queued_errors_witness :
    (runLifecycleModel sampleDrainInput).pendingAfter = [] ∧
    (runLifecycleModel sampleDrainInput).waitCalls = 0 ∧
    (runLifecycleModel sampleDrainInput).outcome =
      (if sampleDrainInput.isDisallowed "Fatal Gateway error: 4000" then none
       else some "Fatal Gateway error: 4000") ∧
    ∃ t0 t1, (runLifecycleModel sampleDrainInput).trace =
      t0 ++ (["transient gateway glitch"].map LEvent.logGatewayErr ++
        [logEventOf sampleDrainInput.isDisallowed "Fatal Gateway error: 4000"]) ++ t1 :=
  lifecycle_drain_queued_errors sampleDrainInput rfl
    ["transient gateway glitch"] "Fatal Gateway error: 4000" [] rfl
    (by decide) (by decide)

theorem count_eq_zero_of_isLog (c : LEvent) (hc : isLogEvent c = false)
    (l : List LEvent) (h : ∀ e ∈ l, isLogEvent e = true) : l.count c = 0 := by
  rw [List.count_eq_zero]
  intro hm
  rw [h c hm] at hc
  cases hc

theorem count_eq_zero_of_not_teardown (c : LEvent) (hc : isTeardownEvent c = true)
    (l : List LEvent) (h : ∀ e ∈ l, isTeardownEvent e = false) : l.count c = 0 := by
  rw [List.count_eq_zero]
  intro hm
  rw [h c hm] at hc
  cases hc

theorem runLifecycleModel_trace (inp : LifecycleInput) :
    (runLifecycleModel inp).trace =
      setupEvents inp ++ (lifecycleTry inp).events ++ teardownEvents inp := rfl

theorem teardown_count_setReconnectZero (inp : LifecycleInput) :
    (teardownEvents inp).count LEvent.setReconnectZero = 0 := by
  unfold teardownEvents
  split_ifs <;> rfl

theorem teardown_count_detachAbort (inp : LifecycleInput) (ha : inp.hasAbortSignal = true) :
    (teardownEvents inp).count LEvent.detachAbort = 1 := by
  unfold teardownEvents
  split_ifs <;> simp_all

/-- With the wait phase reached, the events of the `try` block in order:
approvals start, the drained queue's log lines, the wait call, the one-shot
abort effects (if any), the errors observed during the wait. -/
theorem lifecycleTry_events_proceed (inp : LifecycleInput)
    (hstart : (if inp.approvalsPresent then inp.approvalsStartError else none) = none)
    (hpend : ∀ x ∈ inp.pendingGatewayErrors,
      shouldStopOnGatewayError inp.isDisallowed x = false) :
    (lifecycleTry inp).events =
      (if inp.approvalsPresent then [LEvent.approvalsStart] else []) ++
      inp.pendingGatewayErrors.map LEvent.logGatewayErr ++ [LEvent.waitForStop] ++
      abortDuringWaitEvents inp ++
      (processWaitErrors inp.isDisallowed false inp.waitErrors).events := by
  unfold lifecycleTry
  rw [hstart, drain_nonstop _ _ hpend]
  dsimp only
  rcases (processWaitErrors inp.isDisallowed false inp.waitErrors).rejection <;>
    simp [List.append_assoc]

theorem setup_events_aborted (inp : LifecycleInput) (hg : inp.hasGateway = true)
    (hem : inp.hasEmitter = true) (ha : inp.hasAbortSignal = true)
    (hab : inp.abortAlreadyAborted = true) :
    setupEvents inp = [.registerGateway, .attachLogging, .swallowOneError,
      .setReconnectZero, .disconnectGateway, .attachDebug] := by
  simp [setupEvents, onAbortEvents, hg, hem, ha, hab]

theorem setup_events_not_aborted (inp : LifecycleInput) (hg : inp.hasGateway = true)
    (hem : inp.hasEmitter = true)
    (hab : inp.abortAlreadyAborted = false) :
    setupEvents inp = [.registerGateway, .attachLogging, .attachDebug] := by
  simp [setupEvents, onAbortEvents, hg, hem, hab]

/-- C8: with a cancellation signal present — (i) if the signal is already
set when the run begins, the handle is disconnected with reconnection
disabled immediately (right after registration and logging attachment) and
that effect happens exactly once, no matter how often the signal re-fires;
(ii) otherwise the registered one-shot listener produces the same
swallow/disable/disconnect block exactly once if the signal fires at least
once during the wait, and never otherwise; (iii) the abort listener is
detached exactly once, during teardown. -/
theorem lifecycle_abort_one_shot (inp : LifecycleInput)
    (hg : inp.hasGateway = true) (hem : inp.hasEmitter = true)
    (ha : inp.hasAbortSignal = true)
    (hstart : (if inp.approvalsPresent then inp.approvalsStartError else none) = none)
    (hpend : ∀ x ∈ inp.pendingGatewayErrors,
      shouldStopOnGatewayError inp.isDisallowed x = false) :
    (inp.abortAlreadyAborted = true →
      (∃ rest, (runLifecycleModel inp).trace =
        [LEvent.registerGateway, LEvent.attachLogging, LEvent.swallowOneError,
          LEvent.setReconnectZero, LEvent.disconnectGateway] ++ rest) ∧
      (runLifecycleModel inp).trace.count LEvent.setReconnectZero = 1) ∧
    (inp.abortAlreadyAborted = false →
      (runLifecycleModel inp).trace.count LEvent.setReconnectZero =
        (if 1 ≤ inp.abortFiresDuringWait then 1 else 0) ∧
      (1 ≤ inp.abortFiresDuringWait → ∃ t0 t1, (runLifecycleModel inp).trace =
        t0 ++ [LEvent.swallowOneError, LEvent.setReconnectZero, LEvent.disconnectGateway] ++
          t1)) ∧
    (runLifecycleModel inp).trace.count LEvent.detachAbort = 1 := by
  have htry := lifecycleTry_events_proceed inp hstart hpend
  have hmapC : ∀ c : LEvent, isLogEvent c = false →
      (inp.pendingGatewayErrors.map LEvent.logGatewayErr).count c = 0 := by
    intro c hc
    apply count_eq_zero_of_isLog c hc
    intro e hme
    rcases List.mem_map.mp hme with ⟨m, _, rfl⟩
    rfl
  have hwaitC : ∀ c : LEvent, isLogEvent c = false →
      (processWaitErrors inp.isDisallowed false inp.waitErrors).events.count c = 0 :=
    fun c hc => count_eq_zero_of_isLog c hc _ (processWaitErrors_events _ _ _)
  have hstartC : ∀ c : LEvent, c ≠ LEvent.approvalsStart →
      ((if inp.approvalsPresent then [LEvent.approvalsStart] else []) : List LEvent).count c
        = 0 := by
    intro c hc
    split
    · simp [List.count_singleton, hc]
    · rfl
  refine ⟨?_, ?_, ?_⟩
  · intro hab
    have hsetup := setup_events_aborted inp hg hem ha hab
    have habortEv : abortDuringWaitEvents inp = [] := by
      simp [abortDuringWaitEvents, hab]
    constructor
    · refine ⟨[LEvent.attachDebug] ++ (lifecycleTry inp).events ++ teardownEvents inp, ?_⟩
      rw [runLifecycleModel_trace, hsetup]
      simp
    · rw [runLifecycleModel_trace, htry, hsetup, habortEv]
      simp only [List.count_append]
      rw [hmapC LEvent.setReconnectZero rfl, hwaitC LEvent.setReconnectZero rfl,
        hstartC LEvent.setReconnectZero (by decide), teardown_count_setReconnectZero]
      decide
  · intro hab
    have hsetup := setup_events_not_aborted inp hg hem hab
    have habortEv : abortDuringWaitEvents inp =
        if 1 ≤ inp.abortFiresDuringWait then
          [LEvent.swallowOneError, LEvent.setReconnectZero, LEvent.disconnectGateway]
        else [] := by
      simp [abortDuringWaitEvents, onAbortEvents, hg, hem, ha, hab]
    constructor
    · rw [runLifecycleModel_trace, htry, hsetup, habortEv]
      simp only [List.count_append]
      rw [hmapC LEvent.setReconnectZero rfl, hwaitC LEvent.setReconnectZero rfl,
        hstartC LEvent.setReconnectZero (by decide), teardown_count_setReconnectZero]
      split_ifs <;> decide
    · intro hfire
      rw [if_pos hfire] at habortEv
      refine ⟨setupEvents inp ++
          ((if inp.approvalsPresent then [LEvent.approvalsStart] else []) ++
            inp.pendingGatewayErrors.map LEvent.logGatewayErr ++ [LEvent.waitForStop]),
        (processWaitErrors inp.isDisallowed false inp.waitErrors).events ++
          teardownEvents inp, ?_⟩
      rw [runLifecycleModel_trace, htry, habortEv]
      simp [List.append_assoc]
  · rw [runLifecycleModel_trace]
    simp only [List.count_append]
    rw [count_eq_zero_of_not_teardown LEvent.detachAbort rfl _ (setupEvents_not_teardown inp),
      count_eq_zero_of_not_teardown LEvent.detachAbort rfl _ (lifecycleTry_not_teardown inp),
      teardown_count_detachAbort inp ha]

theorem lifecycle_abort_one_shot_witness :
    (sampleInput.abortAlreadyAborted = true →
      (∃ rest, (runLifecycleModel sampleInput).trace =
        [LEvent.registerGateway, LEvent.attachLogging, LEvent.swallowOneError,
          LEvent.setReconnectZero, LEvent.disconnectGateway] ++ rest) ∧
      (runLifecycleModel sampleInput).trace.count LEvent.setReconnectZero = 1) ∧
    (sampleInput.abortAlreadyAborted = false →
      (runLifecycleModel sampleInput).trace.count LEvent.setReconnectZero =
        (if 1 ≤ sampleInput.abortFiresDuringWait then 1 else 0) ∧
      (1 ≤ sampleInput.abortFiresDuringWait →
        ∃ t0 t1, (runLifecycleModel sampleInput).trace =
          t0 ++ [LEvent.swallowOneError, LEvent.setReconnectZero,
            LEvent.disconnectGateway] ++ t1)) ∧
    (runLifecycleModel sampleInput).trace.count LEvent.detachAbort = 1 :=
  lifecycle_abort_one_shot sampleInput rfl rfl rfl rfl (by decide)

/-- Observable events of the ordered dispatcher, per handler invocation
index: the `handle` call enqueued it, the `handle` call returned, the
handler body began executing, the handler body settled (resolved or
rejected). -/
inductive DispatchEvent
  | enqueued (i : Nat)
  | returned (i : Nat)
  | started (i : Nat)
  | settled (i : Nat)
deriving DecidableEq, Repr

/-- Modelled from the spec: the repository's `DiscordMessageListener`
(`src/discord/monitor/listeners.ts`) is not among the sources here; §4.4
describes its dispatcher as a single forward chain — `handle(event,
context)` appends the handler invocation after the current chain tail and
returns immediately, and each appended invocation runs only after the
prior tail settles.  `pendingTasks` holds the chained not-yet-begun
invocations in arrival order, `running` the only one currently executing,
and `trace` the observable history. -/
structure DispatcherState where
  pendingTasks : List Nat
  running : Option Nat
  nextId : Nat
  trace : List DispatchEvent
deriving DecidableEq, Repr

/-- Scheduler steps: a caller invokes `handle`; the chain advances to the
next link once nothing is running; the running handler body settles. -/
inductive DispatchOp
  | callHandle
  | beginNext
  | settleRunning
deriving DecidableEq, Repr

def dispatchStep (s : DispatcherState) : DispatchOp → DispatcherState
  | .callHandle =>
    { s with
        pendingTasks := s.pendingTasks ++ [s.nextId]
        nextId := s.nextId + 1
        trace := s.trace ++ [.enqueued s.nextId, .returned s.nextId] }
  | .beginNext =>
    match s.running, s.pendingTasks with
    | none, i :: rest =>
      { s with
          pendingTasks := rest
          running := some i
          trace := s.trace ++ [.started i] }
    | _, _ => s
  | .settleRunning =>
    match s.running with
    | some i =>
      { s with
          running := none
          trace := s.trace ++ [.settled i] }
    | none => s

def dispatchRun (s : DispatcherState) : List DispatchOp → DispatcherState
  | [] => s
  | op :: ops => dispatchRun (dispatchStep s op) ops

def dispatchInit : DispatcherState := ⟨[], none, 0, []⟩

/-- Event `e` occurs strictly before event `f` in the trace. -/
def precedes (e f : DispatchEvent) (tr : List DispatchEvent) : Prop :=
  ∃ n m : Nat, n < m ∧ tr[n]? = some e ∧ tr[m]? = some f

def isStartedEv : DispatchEvent → Bool
  | .started _ => true
  | _ => false

def isSettledEv : DispatchEvent → Bool
  | .settled _ => true
  | _ => false

theorem precedes_append {e f : DispatchEvent} {tr : List DispatchEvent}
    (h : precedes e f tr) (t : List DispatchEvent) : precedes e f (tr ++ t) := by
  obtain ⟨n, m, hnm, hn, hm⟩ := h
  obtain ⟨hnl, -⟩ := List.getElem?_eq_some_iff.mp hn
  obtain ⟨hml, -⟩ := List.getElem?_eq_some_iff.mp hm
  exact ⟨n, m, hnm, by rw [List.getElem?_append_left hnl]; exact hn,
    by rw [List.getElem?_append_left hml]; exact hm⟩

theorem precedes_mem_concat {e f : DispatchEvent} {tr : List DispatchEvent}
    (h : e ∈ tr) : precedes e f (tr ++ [f]) := by
  obtain ⟨n, hn⟩ := List.mem_iff_getElem?.mp h
  obtain ⟨hnl, -⟩ := List.getElem?_eq_some_iff.mp hn
  exact ⟨n, tr.length, hnl, by rw [List.getElem?_append_left hnl]; exact hn,
    List.getElem?_concat_length tr f⟩

/-- First-of-two-appended variant: `f` is at position `tr.length` of
`tr ++ [f, g]`. -/
theorem precedes_mem_append_two {e f g : DispatchEvent} {tr : List DispatchEvent}
    (h : e ∈ tr) : precedes e f (tr ++ [f, g]) := by
  obtain ⟨n, hn⟩ := List.mem_iff_getElem?.mp h
  obtain ⟨hnl, -⟩ := List.getElem?_eq_some_iff.mp hn
  refine ⟨n, tr.length, hnl, by rw [List.getElem?_append_left hnl]; exact hn, ?_⟩
  rw [List.getElem?_append_right (le_refl _)]
  simp

theorem countP_take_append (p : DispatchEvent → Bool) (tr ex : List DispatchEvent) (n : Nat) :
    ((tr ++ ex).take n).countP p =
      (tr.take n).countP p + ((ex.take (n - tr.length)).countP p) := by
  rw [List.take_append_eq_append_take, List.countP_append]

theorem countP_take_eq_zero (p : DispatchEvent → Bool) (ex : List DispatchEvent)
    (h : ∀ x ∈ ex, p x = false) (m : Nat) : (ex.take m).countP p = 0 := by
  rw [List.countP_eq_zero]
  intro x hx
  simp [h x (List.take_subset m ex hx)]

/-- Number of handler bodies that have begun. -/
def begunOf (s : DispatcherState) : Nat := s.nextId - s.pendingTasks.length

/-- Inductive invariant of the dispatcher: the chained invocations are the
contiguous range of ids past the begun ones; the running invocation, if
any, is the last begun; every id below the frontier has settled; traces
record returns before starts, starts in id order after the predecessor's
settle, and never more running bodies than one in any prefix. -/
structure DispatchInv (s : DispatcherState) : Prop where
  pending_eq : s.pendingTasks = List.range' (begunOf s) s.pendingTasks.length
  pending_le : s.pendingTasks.length ≤ s.nextId
  run_eq : ∀ r, s.running = some r → r + 1 = begunOf s
  run_none_settled : s.running = none → ∀ i, i < begunOf s →
    DispatchEvent.settled i ∈ s.trace
  run_some_settled : ∀ r, s.running = some r → ∀ i, i < r →
    DispatchEvent.settled i ∈ s.trace
  started_mem : ∀ i, DispatchEvent.started i ∈ s.trace ↔ i < begunOf s
  returned_mem : ∀ i, DispatchEvent.returned i ∈ s.trace ↔ i < s.nextId
  ret_before_start : ∀ i, i < begunOf s →
    precedes (.returned i) (.started i) s.trace
  ret_before_settle : ∀ i, DispatchEvent.settled i ∈ s.trace →
    precedes (.returned i) (.settled i) s.trace
  start_before_settle : ∀ i, DispatchEvent.settled i ∈ s.trace →
    precedes (.started i) (.settled i) s.trace
  settle_before_start : ∀ i j, i < j → j < begunOf s →
    precedes (.settled i) (.started j) s.trace
  counts : ∀ n, ((s.trace.take n).countP isStartedEv) ≤
    ((s.trace.take n).countP isSettledEv) + 1
  counts_started : s.trace.countP isStartedEv = begunOf s
  counts_settled : s.trace.countP isSettledEv +
    (if s.running.isSome then 1 else 0) = begunOf s

theorem dispatchInv_mk_callHandle (p : List Nat) (run : Option Nat) (N : Nat)
    (tr : List DispatchEvent) (h : DispatchInv ⟨p, run, N, tr⟩) :
    DispatchInv ⟨p ++ [N], run, N + 1,
      tr ++ [DispatchEvent.enqueued N, DispatchEvent.returned N]⟩ := by
  have hple : p.length ≤ N := h.pending_le
  have hB : begunOf ⟨p ++ [N], run, N + 1,
      tr ++ [DispatchEvent.enqueued N, DispatchEvent.returned N]⟩ = N - p.length := by
    unfold begunOf
    simp
  have hexS : ∀ x ∈ [DispatchEvent.enqueued N, DispatchEvent.returned N],
      isStartedEv x = false := by
    intro x hx
    simp at hx
    rcases hx with rfl | rfl <;> rfl
  have hexT : ∀ x ∈ [DispatchEvent.enqueued N, DispatchEvent.returned N],
      isSettledEv x = false := by
    intro x hx
    simp at hx
    rcases hx with rfl | rfl <;> rfl
  refine ⟨?_, ?_, ?_, ?_, ?_, ?_, ?_, ?_, ?_, ?_, ?_, ?_, ?_, ?_⟩
  · show p ++ [N] = List.range' _ (p ++ [N]).length
    rw [hB]
    have hlen : (p ++ [N]).length = p.length + 1 := by simp
    rw [hlen, List.range'_concat]
    have hN : N - p.length + 1 * p.length = N := by omega
    rw [hN]
    have hp := h.pending_eq
    exact congrArg (· ++ [N]) hp
  · show (p ++ [N]).length ≤ N + 1
    simp
    omega
  · intro r hr
    rw [hB]
    exact h.run_eq r hr
  · intro hrn i hi
    rw [hB] at hi
    exact List.mem_append.mpr (Or.inl (h.run_none_settled hrn i hi))
  · intro r hr i hi
    exact List.mem_append.mpr (Or.inl (h.run_some_settled r hr i hi))
  · intro i
    rw [hB]
    show DispatchEvent.started i ∈ tr ++ _ ↔ _
    rw [List.mem_append]
    constructor
    · rintro (hm | hm)
      · exact (h.started_mem i).mp hm
      · simp at hm
    · intro hi
      exact Or.inl ((h.started_mem i).mpr hi)
  · intro i
    show DispatchEvent.returned i ∈ tr ++ _ ↔ i < N + 1
    rw [List.mem_append]
    constructor
    · rintro (hm | hm)
      · exact Nat.lt_succ_of_lt ((h.returned_mem i).mp hm)
      · simp at hm
        omega
    · intro hi
      rcases Nat.lt_succ_iff_lt_or_eq.mp hi with hi | hi
      · exact Or.inl ((h.returned_mem i).mpr hi)
      · subst hi
        simp
  · intro i hi
    rw [hB] at hi
    exact precedes_append (h.ret_before_start i hi) _
  · intro i hm
    rcases List.mem_append.mp hm with hm | hm
    · exact precedes_append (h.ret_before_settle i hm) _
    · simp at hm
  · intro i hm
    rcases List.mem_append.mp hm with hm | hm
    · exact precedes_append (h.start_before_settle i hm) _
    · simp at hm
  · intro i j hij hj
    rw [hB] at hj
    exact precedes_append (h.settle_before_start i j hij hj) _
  · intro n
    show ((tr ++ _).take n).countP isStartedEv ≤ ((tr ++ _).take n).countP isSettledEv + 1
    rw [countP_take_append, countP_take_append,
      countP_take_eq_zero _ _ hexS, countP_take_eq_zero _ _ hexT]
    simpa using h.counts n
  · show (tr ++ _).countP isStartedEv = _
    have hcS : List.countP isStartedEv [DispatchEvent.enqueued N, DispatchEvent.returned N] = 0 :=
      List.countP_eq_zero.mpr (fun x hx => by simp [hexS x hx])
    rw [List.countP_append, hB, h.counts_started, hcS]
    rfl
  · show (tr ++ _).countP isSettledEv + _ = _
    have hcT : List.countP isSettledEv [DispatchEvent.enqueued N, DispatchEvent.returned N] = 0 :=
      List.countP_eq_zero.mpr (fun x hx => by simp [hexT x hx])
    rw [List.countP_append, hB, hcT]
    have hc := h.counts_settled
    have hbold : begunOf ⟨p, run, N, tr⟩ = N - p.length := rfl
    dsimp only at hc ⊢
    omega

theorem dispatchInv_mk_beginNext (i : Nat) (rest : List Nat) (N : Nat)
    (tr : List DispatchEvent) (h : DispatchInv ⟨i :: rest, none, N, tr⟩) :
    DispatchInv ⟨rest, some i, N, tr ++ [DispatchEvent.started i]⟩ := by
  have hple : (i :: rest).length ≤ N := h.pending_le
  simp only [List.length_cons] at hple
  have hbold : begunOf ⟨i :: rest, none, N, tr⟩ = N - (rest.length + 1) := rfl
  have hB : begunOf ⟨rest, some i, N, tr ++ [DispatchEvent.started i]⟩ = N - rest.length := rfl
  have hpe := h.pending_eq
  rw [hbold] at hpe
  simp only [List.length_cons] at hpe
  rw [List.range'_succ] at hpe
  injection hpe with hi hrest
  have hexS : ∀ x ∈ [DispatchEvent.started i], isSettledEv x = false := by
    intro x hx
    simp at hx
    subst hx; rfl
  refine ⟨?_, ?_, ?_, ?_, ?_, ?_, ?_, ?_, ?_, ?_, ?_, ?_, ?_, ?_⟩
  · show rest = List.range' _ rest.length
    rw [hB]
    have : N - rest.length = N - (rest.length + 1) + 1 := by omega
    rw [this]
    exact hrest
  · show rest.length ≤ N
    omega
  · intro r hr
    injection hr with hir
    rw [hB, ← hir]
    omega
  · intro hco
    exact absurd hco (by simp)
  · intro r hr k hk
    injection hr with hir
    have hk2 : k < N - (rest.length + 1) := by omega
    exact List.mem_append.mpr (Or.inl (h.run_none_settled rfl k hk2))
  · intro j
    rw [hB]
    show DispatchEvent.started j ∈ tr ++ _ ↔ j < N - rest.length
    rw [List.mem_append]
    constructor
    · rintro (hm | hm)
      · have h1 : j < N - (rest.length + 1) := (h.started_mem j).mp hm
        omega
      · simp at hm
        omega
    · intro hj
      by_cases hj2 : j < N - (rest.length + 1)
      · exact Or.inl ((h.started_mem j).mpr hj2)
      · have : j = i := by omega
        subst this
        simp
  · intro j
    show DispatchEvent.returned j ∈ tr ++ _ ↔ j < N
    rw [List.mem_append]
    constructor
    · rintro (hm | hm)
      · exact (h.returned_mem j).mp hm
      · simp at hm
    · intro hj
      exact Or.inl ((h.returned_mem j).mpr hj)
  · intro j hj
    rw [hB] at hj
    by_cases hj2 : j < N - (rest.length + 1)
    · exact precedes_append (h.ret_before_start j hj2) _
    · have hji : j = i := by omega
      subst hji
      have hjN : j < N := by omega
      exact precedes_mem_concat ((h.returned_mem j).mpr hjN)
  · intro j hm
    rcases List.mem_append.mp hm with hm | hm
    · exact precedes_append (h.ret_before_settle j hm) _
    · simp at hm
  · intro j hm
    rcases List.mem_append.mp hm with hm | hm
    · exact precedes_append (h.start_before_settle j hm) _
    · simp at hm
  · intro k j hkj hj
    rw [hB] at hj
    by_cases hj2 : j < N - (rest.length + 1)
    · exact precedes_append (h.settle_before_start k j hkj hj2) _
    · have hji : j = i := by omega
      subst hji
      have hk2 : k < N - (rest.length + 1) := by omega
      exact precedes_mem_concat (h.run_none_settled rfl k hk2)
  · intro n
    show ((tr ++ _).take n).countP isStartedEv ≤ ((tr ++ _).take n).countP isSettledEv + 1
    rw [countP_take_append, countP_take_append, countP_take_eq_zero _ _ hexS]
    by_cases hn : n ≤ tr.length
    · have hz : n - tr.length = 0 := by omega
      rw [hz]
      simpa using h.counts n
    · have hfull : tr.take n = tr := List.take_of_length_le (by omega)
      rw [hfull]
      have h1 : (List.take (n - tr.length) [DispatchEvent.started i]).countP isStartedEv ≤ 1 := by
        have := List.Sublist.countP_le isStartedEv
          (List.take_sublist (n - tr.length) [DispatchEvent.started i])
        simpa [isStartedEv] using this
      have hs := h.counts_started
      have hset := h.counts_settled
      rw [hbold] at hs hset
      dsimp only at hs hset
      have h0 : (if (none : Option Nat).isSome = true then 1 else 0) = 0 := rfl
      omega
  · show (tr ++ _).countP isStartedEv = _
    rw [List.countP_append, hB]
    have hs := h.counts_started
    rw [hbold] at hs
    dsimp only at hs
    have h1 : List.countP isStartedEv [DispatchEvent.started i] = 1 := rfl
    omega
  · show (tr ++ _).countP isSettledEv + _ = _
    dsimp only
    rw [List.countP_append, hB]
    have hset := h.counts_settled
    rw [hbold] at hset
    dsimp only at hset
    have h0 : List.countP isSettledEv [DispatchEvent.started i] = 0 := rfl
    have h1 : (if (none : Option Nat).isSome = true then 1 else 0) = 0 := rfl
    have h2 : (if (some i : Option Nat).isSome = true then 1 else 0) = 1 := rfl
    omega

theorem dispatchInv_mk_settleRunning (r : Nat) (p : List Nat) (N : Nat)
    (tr : List DispatchEvent) (h : DispatchInv ⟨p, some r, N, tr⟩) :
    DispatchInv ⟨p, none, N, tr ++ [DispatchEvent.settled r]⟩ := by
  have hple : p.length ≤ N := h.pending_le
  have hbold : begunOf ⟨p, some r, N, tr⟩ = N - p.length := rfl
  have hB : begunOf ⟨p, none, N, tr ++ [DispatchEvent.settled r]⟩ = N - p.length := rfl
  have hreq : r + 1 = N - p.length := h.run_eq r rfl
  have hexS : ∀ x ∈ [DispatchEvent.settled r], isStartedEv x = false := by
    intro x hx
    simp at hx
    subst hx; rfl
  refine ⟨?_, ?_, ?_, ?_, ?_, ?_, ?_, ?_, ?_, ?_, ?_, ?_, ?_, ?_⟩
  · show p = List.range' _ p.length
    rw [hB]
    exact h.pending_eq
  · exact hple
  · intro r' hr'
    exact absurd hr' (by simp)
  · intro _ k hk
    rw [hB] at hk
    rcases Nat.lt_succ_iff_lt_or_eq.mp (by omega : k < r + 1) with hk2 | hk2
    · exact List.mem_append.mpr (Or.inl (h.run_some_settled r rfl k hk2))
    · subst hk2
      simp
  · intro r' hr'
    exact absurd hr' (by simp)
  · intro j
    rw [hB]
    show DispatchEvent.started j ∈ tr ++ _ ↔ j < N - p.length
    rw [List.mem_append]
    constructor
    · rintro (hm | hm)
      · exact (h.started_mem j).mp hm
      · simp at hm
    · intro hj
      exact Or.inl ((h.started_mem j).mpr hj)
  · intro j
    show DispatchEvent.returned j ∈ tr ++ _ ↔ j < N
    rw [List.mem_append]
    constructor
    · rintro (hm | hm)
      · exact (h.returned_mem j).mp hm
      · simp at hm
    · intro hj
      exact Or.inl ((h.returned_mem j).mpr hj)
  · intro j hj
    rw [hB] at hj
    exact precedes_append (h.ret_before_start j hj) _
  · intro j hm
    rcases List.mem_append.mp hm with hm | hm
    · exact precedes_append (h.ret_before_settle j hm) _
    · simp at hm
      subst hm
      have hjN : j < N := by omega
      exact precedes_mem_concat ((h.returned_mem j).mpr hjN)
  · intro j hm
    rcases List.mem_append.mp hm with hm | hm
    · exact precedes_append (h.start_before_settle j hm) _
    · simp at hm
      subst hm
      have hjb : j < N - p.length := by omega
      exact precedes_mem_concat ((h.started_mem j).mpr hjb)
  · intro k j hkj hj
    rw [hB] at hj
    exact precedes_append (h.settle_before_start k j hkj hj) _
  · intro n
    show ((tr ++ _).take n).countP isStartedEv ≤ ((tr ++ _).take n).countP isSettledEv + 1
    rw [countP_take_append, countP_take_append, countP_take_eq_zero _ _ hexS]
    have hcn := h.counts n
    dsimp only at hcn
    omega
  · show (tr ++ _).countP isStartedEv = _
    rw [List.countP_append, hB]
    have hs := h.counts_started
    rw [hbold] at hs
    dsimp only at hs
    have h0 : List.countP isStartedEv [DispatchEvent.settled r] = 0 := rfl
    omega
  · show (tr ++ _).countP isSettledEv + _ = _
    dsimp only
    rw [List.countP_append, hB]
    have hset := h.counts_settled
    rw [hbold] at hset
    dsimp only at hset
    have h1 : List.countP isSettledEv [DispatchEvent.settled r] = 1 := rfl
    have h2 : (if (some r : Option Nat).isSome = true then 1 else 0) = 1 := rfl
    have h3 : (if (none : Option Nat).isSome = true then 1 else 0) = 0 := rfl
    omega

theorem dispatchStep_inv {s : DispatcherState} (h : DispatchInv s) (op : DispatchOp) :
    DispatchInv (dispatchStep s op) := by
  obtain ⟨p, run, N, tr⟩ := s
  cases op with
  | callHandle => exact dispatchInv_mk_callHandle p run N tr h
  | beginNext =>
    cases run with
    | some r => exact h
    | none =>
      cases p with
      | nil => exact h
      | cons i rest => exact dispatchInv_mk_beginNext i rest N tr h
  | settleRunning =>
    cases run with
    | none => exact h
    | some r => exact dispatchInv_mk_settleRunning r p N tr h

theorem dispatchRun_inv {s : DispatcherState} (h : DispatchInv s) :
    ∀ ops : List DispatchOp, DispatchInv (dispatchRun s ops)
  | [] => h
  | op :: ops => dispatchRun_inv (dispatchStep_inv h op) ops

theorem dispatchInit_inv : DispatchInv dispatchInit := by
  refine ⟨?_, ?_, ?_, ?_, ?_, ?_, ?_, ?_, ?_, ?_, ?_, ?_, ?_, ?_⟩ <;>
    simp [dispatchInit, begunOf, precedes]

/-- C9: for any interleaving of `handle` calls and scheduler advances, the
resulting trace satisfies — each `handle` call returns before its handler
body begins (hence before it completes); a settled body was preceded by
its own `handle` return; for two events enqueued in order A then B, B's
body does not begin until A's has settled; and in every trace prefix at
most one handler body has begun without settling. -/
theorem dispatcher_ordered_serialized (ops : List DispatchOp) :
    (∀ i : Nat, DispatchEvent.started i ∈ (dispatchRun dispatchInit ops).trace →
      precedes (.returned i) (.started i) (dispatchRun dispatchInit ops).trace) ∧
    (∀ i : Nat, DispatchEvent.settled i ∈ (dispatchRun dispatchInit ops).trace →
      precedes (.returned i) (.settled i) (dispatchRun dispatchInit ops).trace) ∧
    (∀ i j : Nat, i < j → DispatchEvent.started j ∈ (dispatchRun dispatchInit ops).trace →
      precedes (.settled i) (.started j) (dispatchRun dispatchInit ops).trace) ∧
    (∀ n : Nat, (((dispatchRun dispatchInit ops).trace.take n).countP isStartedEv) ≤
      (((dispatchRun dispatchInit ops).trace.take n).countP isSettledEv) + 1) := by
  have hinv := dispatchRun_inv dispatchInit_inv ops
  exact ⟨fun i hm => hinv.ret_before_start i ((hinv.started_mem i).mp hm),
    fun i hm => hinv.ret_before_settle i hm,
    fun i j hij hm => hinv.settle_before_start i j hij ((hinv.started_mem j).mp hm),
    hinv.counts⟩

/-- Two `handle` calls enqueued back to back, then the chain runs both. -/
def sampleDispatchOps : List DispatchOp :=
  [.callHandle, .callHandle, .beginNext, .settleRunning, .beginNext, .settleRunning]

theorem dispatcher_ordered_serialized_witness :
    precedes (.settled 0) (.started 1) (dispatchRun dispatchInit sampleDispatchOps).trace :=
  (dispatcher_ordered_serialized sampleDispatchOps).2.2.1 0 1 (by decide) (by decide)
